import Mathlib

/-!
# Verification of the honeypot Detection & Behavioral-Tracking Engine

Shallow embedding of the scam-detection engine of this repository
(`app/services/detector.py`, `app/main.py`, `app/session_manager.py`,
`app/intelligence_extractor.py`, `app/services/behavior_engine.py`).

Modelling conventions:
* Python floats are modelled as rationals (`ℚ`); every weight occurring in
  the detector is a multiple of 1/2, so rational arithmetic agrees with the
  exact float arithmetic the code performs.
* Python `set` values are modelled as `Finset String`.
* Python strings are handled as `List Char` (via `String.data`), and
  `str.lower()` is modelled as a character-wise lower-casing.
* The TF-IDF semantic layer calls into sklearn; that library call is
  abstracted as a boolean oracle `sem : List Char → Bool` standing for
  "maximum cosine similarity against the template corpus exceeds 0.6".
  Every theorem is universally quantified over this oracle.
* The simple regular expressions of `detector.py` are compiled by hand into
  character-list scanners with the same `re.search` presence semantics.
-/

/-- Python substring test `needle in hay` over character lists. -/
def containsSub (needle : List Char) : List Char → Bool
  | [] => needle.isEmpty
  | c :: rest => needle.isPrefixOf (c :: rest) || containsSub needle rest

/-- Python `str.lower()` (character-wise, which is exact for the ASCII
keyword vocabulary used by the engine). -/
def pyLower (s : String) : List Char := s.data.map Char.toLower

/-- Python regex class `\s` (ASCII fragment). -/
def pySpace (c : Char) : Bool :=
  c == ' ' || c == '\t' || c == '\n' || c == '\r' || c == '\x0b' || c == '\x0c'

/-- Python regex class `\w` (ASCII fragment): alphanumeric or underscore. -/
def isWordChar (c : Char) : Bool := c.isAlphanum || c == '_'

/-- Matcher for the `.*pat` part of a safety regex: some occurrence of `b`
whose preceding gap contains no newline, mirroring that `.` in `re` does not
match a newline. -/
def tailMatch (b : List Char) : List Char → Bool
  | [] => b.isEmpty
  | c :: rest => b.isPrefixOf (c :: rest) || (!(c == '\n') && tailMatch b rest)

/-- Matcher for a regex of the shape `a.*b` under `re.search` semantics. -/
def dotStarMatch (a b : List Char) : List Char → Bool
  | [] => a.isEmpty && tailMatch b []
  | c :: rest =>
    (a.isPrefixOf (c :: rest) && tailMatch b ((c :: rest).drop a.length)) ||
      dotStarMatch a b rest

/-- Shape of one entry of `ScamDetector.SAFETY_PATTERNS`: either a literal
substring pattern or an `a.*b` pattern. -/
inductive SPat where
  | plain (p : String)
  | dotStar (a b : String)

/-- `re.search` of one safety pattern against the lower-cased text. -/
def matchSPat (cs : List Char) : SPat → Bool
  | .plain p => containsSub p.data cs
  | .dotStar a b => dotStarMatch a.data b.data cs

/-- `ScamDetector.SAFETY_PATTERNS` (detector.py lines 74-85); the regex
`don'?t share.*otp` is expanded into its two alternatives. -/
def SAFETY_PATTERNS : List SPat :=
  [ .dotStar "never share" "otp"
  , .dotStar "do not share" "otp"
  , .dotStar "don\x27t share" "otp"
  , .dotStar "dont share" "otp"
  , .dotStar "never give" "otp"
  , .dotStar "do not click" "link"
  , .dotStar "bank" "never asks"
  , .dotStar "officials" "never ask"
  , .plain "stay safe"
  , .plain "be careful"
  , .plain "not a scam" ]

/-- `is_safety_advice` pre-check of `ScamDetector.detect` (line 121). -/
def isSafetyAdvice (textLower : List Char) : Bool :=
  SAFETY_PATTERNS.any (matchSPat textLower)

/-- Presence of regex `(https?://\S+|www\.\S+)`. -/
def hasUrl : List Char → Bool
  | [] => false
  | c :: rest =>
    (("http://".data.isPrefixOf (c :: rest) && !((c :: rest).drop 7).head?.all pySpace) ||
     ("https://".data.isPrefixOf (c :: rest) && !((c :: rest).drop 8).head?.all pySpace) ||
     ("www.".data.isPrefixOf (c :: rest) && !((c :: rest).drop 4).head?.all pySpace)) ||
    hasUrl rest

/-- Character class `[\w\.\-_]` of the UPI regex. -/
def upiLocalChar (c : Char) : Bool := isWordChar c || c == '.' || c == '-'

/-- Presence of regex `[\w\.\-_]+@[\w]+`: an `@` with an admissible
character on each side. -/
def hasUpiPattern : List Char → Bool
  | a :: b :: c :: rest =>
    (upiLocalChar a && b == '@' && isWordChar c) || hasUpiPattern (b :: c :: rest)
  | _ => false

/-- Scanner for `\b\d{lo,hi}\b`: looks for a maximal digit run of length in
`[lo, hi]` flanked by non-word characters (or the ends of the text).
`runLen` is the length of the digit run currently being read and `leftOk`
records whether the run started at a word boundary. -/
def digitRunScan (lo hi : Nat) : Nat → Bool → List Char → Bool
  | runLen, leftOk, [] => leftOk && decide (lo ≤ runLen) && decide (runLen ≤ hi)
  | runLen, leftOk, c :: rest =>
    if c.isDigit then digitRunScan lo hi (runLen + 1) leftOk rest
    else if leftOk && decide (lo ≤ runLen) && decide (runLen ≤ hi) && !(isWordChar c) then true
    else digitRunScan lo hi 0 (!(isWordChar c)) rest

/-- Presence of the `bank` regex `\b\d{9,18}\b`. -/
def hasBankDigits (cs : List Char) : Bool := digitRunScan 9 18 0 true cs

/-- Presence of the `otp_pattern` regex `\b\d{4,6}\b`. -/
def hasOtpDigits (cs : List Char) : Bool := digitRunScan 4 6 0 true cs

/-- Presence of the `phone` regex `(\+91[\-\s]?)?[6-9]\d{9}`: since the
prefix group is optional, presence is equivalent to a digit 6-9 followed by
nine digits. -/
def hasPhoneSeq : List Char → Bool
  | [] => false
  | c :: rest =>
    ((c == '6' || c == '7' || c == '8' || c == '9') &&
      decide ((rest.take 9).length = 9) && (rest.take 9).all Char.isDigit) ||
    hasPhoneSeq rest

/-- `\b`-delimited occurrence of one of the words `ws` starting at the head
of `l`, i.e. the word is a prefix and the following character (if any) is a
non-word character. The left boundary is checked by the caller. -/
def wordHitAtHead (w : List Char) (l : List Char) : Bool :=
  w.isPrefixOf l &&
    (match (l.drop w.length).head? with
     | some c => !(isWordChar c)
     | none => true)

/-- Scanner for `\b(w₁|w₂|…)\b`; `leftOk` tracks whether the current
position is at a word boundary. -/
def anyWordScan (ws : List (List Char)) : Bool → List Char → Bool
  | _, [] => false
  | leftOk, c :: rest =>
    (leftOk && ws.any (fun w => wordHitAtHead w (c :: rest))) ||
      anyWordScan ws (!(isWordChar c)) rest

/-- Presence of the `otp_keyword` regex `\b(otp|code|pin|password)\b`. -/
def hasOtpKeyword (cs : List Char) : Bool :=
  anyWordScan ["otp".data, "code".data, "pin".data, "password".data] true cs

/-- Layer 1, `ScamDetector._structural_score` (detector.py lines 172-206).
URL/UPI/bank patterns run on the raw text, the otp keyword on the
lower-cased text, exactly as in the source. -/
def structuralScore (text textLower : List Char) : ℚ :=
  (if hasUrl text then 5/2 else 0) +
  (if hasUpiPattern text then 3 else 0) +
  (if hasBankDigits text && !(hasPhoneSeq text) then 3 else 0) +
  (if hasOtpKeyword textLower || (hasOtpDigits text && containsSub "otp".data textLower)
    then 4 else 0)

/-- Urgency vocabulary of `ScamDetector._keyword_score`. -/
def urgencyWords : List String :=
  [ "urgent", "immediately", "now", "verify", "blocked", "suspended", "prize"
  , "reward", "offer", "limited", "expire", "lapse", "kyc" ]

/-- Layer 2, `ScamDetector._keyword_score`: 0.5 per hit, capped at 2.0. -/
def keywordScore (textLower : List Char) : ℚ :=
  min (((urgencyWords.filter (fun w => containsSub w.data textLower)).length : ℚ) * (1/2)) 2

/-- Co-occurrence rule table of `ScamDetector._context_score`. -/
def contextRules : List (String × String) :=
  [ ("verify", "link"), ("send", "money"), ("send", "payment"), ("share", "otp")
  , ("give", "otp"), ("tell", "otp"), ("update", "bank"), ("click", "link")
  , ("confirm", "account"), ("verify", "kyc"), ("block", "account")
  , ("share", "upi"), ("give", "upi"), ("send", "upi"), ("verify", "upi")
  , ("share", "id"), ("verification", "upi"), ("verification", "account")
  , ("verification", "otp"), ("transfer", "account"), ("transfer", "money")
  , ("pay", "now"), ("send", "amount") ]

/-- Layer 3, `ScamDetector._context_score`: 3.0 for each rule whose two
terms are both present. -/
def contextScore (textLower : List Char) : ℚ :=
  3 * ((contextRules.filter
    (fun r => containsSub r.1.data textLower && containsSub r.2.data textLower)).length : ℚ)

/-- Layer 4, `ScamDetector._semantic_score`, with the sklearn cosine
similarity test abstracted as the oracle `sem`: empty (all-whitespace) text
scores 0, a similarity above the 0.6 threshold scores 3.0, otherwise 0. -/
def semanticScore (sem : List Char → Bool) (textLower : List Char) : ℚ :=
  if textLower.all pySpace then 0
  else if sem textLower then 3 else 0

/-- Suspicious history vocabulary of `ScamDetector._history_score`. -/
def historySuspiciousWords : List String := ["details", "bank", "otp", "link", "money"]

/-- Layer 5, `ScamDetector._history_score` (detector.py lines 299-326). -/
def historyScore (history : List String) : ℚ :=
  if history.isEmpty then 0
  else
    let suspiciousCount :=
      history.countP
        (fun m => historySuspiciousWords.any (fun w => containsSub w.data (pyLower m)))
    (if suspiciousCount > 0 then min 3 ((suspiciousCount : ℚ) * 1) else 0) +
    (if history.length > 3 then 1/2 else 0)

/-- Result of `ScamDetector.detect` (decision and 0-10 risk score; the
debug dictionary is not modelled). -/
structure DetectResult where
  isScam : Bool
  score : ℚ
deriving DecidableEq, Repr

/-- `ScamDetector.detect` (detector.py lines 93-170): safety-advice
pre-check with early return, then the five layers, the sum clamped to
[0, 10], and the 6.0 decision threshold. -/
def ScamDetector.detect (sem : List Char → Bool) (text : String) (history : List String) :
    DetectResult :=
  let textLower := pyLower text
  if isSafetyAdvice textLower then { isScam := false, score := 0 }
  else
    let total := structuralScore text.data textLower + keywordScore textLower +
      contextScore textLower + semanticScore sem textLower + historyScore history
    let totalClamped := max 0 (min 10 total)
    { isScam := decide (totalClamped ≥ 6), score := totalClamped }

/-- Helper: the safety-advice early return of `detect`. -/
theorem detect_of_safety (sem : List Char → Bool) (text : String) (history : List String)
    (h : isSafetyAdvice (pyLower text) = true) :
    ScamDetector.detect sem text history = { isScam := false, score := 0 } := by
  unfold ScamDetector.detect
  simp [h]

/-- C1: any text matching a protective-advice pattern is classified
not-scam with risk score exactly 0, regardless of the history and of any
other content of the text (no other layer contributes). -/
theorem C1_safety_advice_override (sem : List Char → Bool) (text : String)
    (history : List String) (h : isSafetyAdvice (pyLower text) = true) :
    ScamDetector.detect sem text history = { isScam := false, score := 0 } :=
  detect_of_safety sem text history h

/-- C1 witness: a concrete protective-advice message that also carries an
OTP digit run, a UPI id, a phone number and a suspicious URL. -/
theorem C1_safety_advice_override_witness :
    isSafetyAdvice (pyLower "Never share OTP 123456 pay 9876543210 a@ybl http://x.xyz") = true ∧
    ScamDetector.detect (fun _ => true)
      "Never share OTP 123456 pay 9876543210 a@ybl http://x.xyz" ["send otp"] =
      { isScam := false, score := 0 } :=
  ⟨by decide,
   C1_safety_advice_override (fun _ => true)
     "Never share OTP 123456 pay 9876543210 a@ybl http://x.xyz" ["send otp"] (by decide)⟩

/-- C4: the returned risk score is the sum of the active layer scores
(no layer is active on a safety-advice text) clamped to [0, 10], and the
scam decision holds iff that clamped total reaches the 6.0 threshold. -/
theorem C4_total_clamped_and_threshold (sem : List Char → Bool) (text : String)
    (history : List String) :
    (ScamDetector.detect sem text history).score =
      max 0 (min 10
        (if isSafetyAdvice (pyLower text) then 0
         else structuralScore text.data (pyLower text) + keywordScore (pyLower text) +
           contextScore (pyLower text) + semanticScore sem (pyLower text) +
           historyScore history)) ∧
    ((ScamDetector.detect sem text history).isScam = true ↔
      (ScamDetector.detect sem text history).score ≥ 6) := by
  unfold ScamDetector.detect
  by_cases h : isSafetyAdvice (pyLower text) <;> simp [h]

/-- C10: a message whose lower-cased text contains `"not a scam"` or
`"be careful"` is always classified not-scam with score 0, whatever else it
contains. -/
theorem C10_adversarial_safety_substrings (sem : List Char → Bool) (text : String)
    (history : List String)
    (h : containsSub "not a scam".data (pyLower text) = true ∨
         containsSub "be careful".data (pyLower text) = true) :
    ScamDetector.detect sem text history = { isScam := false, score := 0 } := by
  apply detect_of_safety
  unfold isSafetyAdvice SAFETY_PATTERNS
  rcases h with h | h <;> simp [matchSPat, h]

/-- C10 witness: a message that merely asserts it is not a scam while
demanding money and an OTP is classified not-scam with zero score. -/
theorem C10_adversarial_safety_substrings_witness :
    containsSub "not a scam".data (pyLower "Send money and OTP now, this is not a scam!") = true ∧
    ScamDetector.detect (fun _ => true) "Send money and OTP now, this is not a scam!" [] =
      { isScam := false, score := 0 } :=
  ⟨by decide,
   C10_adversarial_safety_substrings (fun _ => true)
     "Send money and OTP now, this is not a scam!" [] (Or.inl (by decide))⟩

/-- `IntelligenceSet`: the six per-category collections of
`ExtractedIntelligenceInternal`; Python's deduplicated lists built through
`set(...)` are modelled as finsets. -/
@[ext]
structure Intel where
  bankAccounts : Finset String
  upiIds : Finset String
  phoneNumbers : Finset String
  phishingLinks : Finset String
  emailAddresses : Finset String
  suspiciousKeywords : Finset String
deriving DecidableEq

/-- The empty `ExtractedIntelligenceInternal()`. -/
def emptyI : Intel := ⟨∅, ∅, ∅, ∅, ∅, ∅⟩

/-- `SessionManager._merge_intelligence` (session_manager.py lines 110-124):
per-category `list(set(existing + new))`, i.e. set union. -/
def mergeIntelligence (a b : Intel) : Intel :=
  { bankAccounts := a.bankAccounts ∪ b.bankAccounts
  , upiIds := a.upiIds ∪ b.upiIds
  , phoneNumbers := a.phoneNumbers ∪ b.phoneNumbers
  , phishingLinks := a.phishingLinks ∪ b.phishingLinks
  , emailAddresses := a.emailAddresses ∪ b.emailAddresses
  , suspiciousKeywords := a.suspiciousKeywords ∪ b.suspiciousKeywords }

/-- `IntelligenceExtractor.extract_from_conversation` (lines 195-223):
fold the per-message extractor over the history, merge in the current
message, and deduplicate.  The per-message extractor
`self.extract_from_message` is passed as the parameter `exti`. -/
def IntelligenceExtractor.extract_from_conversation (exti : String → Intel)
    (current : String) (history : List String) : Intel :=
  mergeIntelligence
    (history.foldl (fun acc m => mergeIntelligence acc (exti m)) emptyI)
    (exti current)

/-- A stored conversation message (`new_message` dict of `main.py`). -/
structure MsgRec where
  sender : String
  text : String
  timestamp : String
deriving DecidableEq, Repr

/-- The per-session state of `SessionData` that the verified claims touch
(timestamps and the persona dict are not modelled). -/
structure Session where
  scamDetected : Bool
  scamConfidence : ℚ
  messages : List MsgRec
  agentNotes : List String
  isCompleted : Bool
  intelligence : Intel
deriving DecidableEq

/-- A freshly created session (`SessionManager.create_session`). -/
def newSession : Session :=
  { scamDetected := false, scamConfidence := 0, messages := [], agentNotes := []
  , isCompleted := false, intelligence := emptyI }

/-- Field updates of `SessionManager.update_session` (lines 65-108): each
`None` keyword argument leaves the field untouched; a new message or note is
appended; new intelligence is merged via `_merge_intelligence`. -/
def SessionManager.updateSessionFields (s : Session)
    (scamDetected : Option Bool) (scamConfidence : Option ℚ) (newMessage : Option MsgRec)
    (intelligence : Option Intel) (agentNote : Option String) (isCompleted : Option Bool) :
    Session :=
  { scamDetected := scamDetected.getD s.scamDetected
  , scamConfidence := scamConfidence.getD s.scamConfidence
  , messages := match newMessage with
      | some m => s.messages ++ [m]
      | none => s.messages
  , agentNotes := match agentNote with
      | some n => s.agentNotes ++ [n]
      | none => s.agentNotes
  , isCompleted := isCompleted.getD s.isCompleted
  , intelligence := match intelligence with
      | some i => mergeIntelligence s.intelligence i
      | none => s.intelligence }

/-- Cumulative score of `process_message` (main.py lines 209-214): the
current risk score plus `0.3 ×` the isolated re-score of each of the last
five history texts. -/
def cumulativeScore (sem : List Char → Bool) (text : String) (history : List String) : ℚ :=
  let risk := (ScamDetector.detect sem text history).score
  if history.isEmpty then risk
  else (history.drop (history.length - 5)).foldl
    (fun acc h => acc + (ScamDetector.detect sem h []).score * (3/10)) risk

/-- One `/api/honeypot` request processed for a session (main.py lines
171-247): store the incoming message, run the detector, apply the
progressive-detection rule and the confidence formula, merge the extracted
intelligence.  The agent-reply branch (LLM call) is outside the verified
core; the formatted note text is modelled by a placeholder. -/
def processMessageStep (sem : List Char → Bool) (exti : String → Intel)
    (s : Session) (text : String) (history : List String) : Session :=
  let s0 := SessionManager.updateSessionFields s none none
    (some { sender := "scammer", text := text, timestamp := "" }) none none none
  let d := ScamDetector.detect sem text history
  let sessionWasScam := s.scamDetected
  let cum := cumulativeScore sem text history
  let isScam := d.isScam || sessionWasScam || decide (cum ≥ 6)
  let conf := min (cum / 10) 1
  let s1 := SessionManager.updateSessionFields s0 (some isScam) (some conf) none none
    (some "analysis") none
  SessionManager.updateSessionFields s1 none none none
    (some (IntelligenceExtractor.extract_from_conversation exti text history)) none none

/-- Every detector result has a non-negative score. -/
theorem detect_score_nonneg (sem : List Char → Bool) (text : String) (history : List String) :
    0 ≤ (ScamDetector.detect sem text history).score := by
  unfold ScamDetector.detect
  by_cases h : isSafetyAdvice (pyLower text) <;> simp [h]

/-- Folding an accumulating addition equals the initial value plus the sum
of the mapped list. -/
theorem foldl_add_map {α : Type} (f : α → ℚ) (init : ℚ) (l : List α) :
    l.foldl (fun acc x => acc + f x) init = init + (l.map f).sum := by
  induction l generalizing init with
  | nil => simp
  | cons x xs ih => simp [ih, add_assoc]

/-- C5: on each update, the cumulative score is the current risk score plus
0.3 times the isolated (empty-history) risk score of each of the most
recent five history texts; the stored session confidence is
`min(cumulativeScore / 10, 1)` and always lies in `[0, 1]`. -/
theorem C5_cumulative_score_and_confidence (sem : List Char → Bool) (text : String)
    (history : List String) :
    cumulativeScore sem text history =
      (ScamDetector.detect sem text history).score +
        ((history.drop (history.length - 5)).map
          (fun h => (3/10) * (ScamDetector.detect sem h []).score)).sum ∧
    (∀ exti s, (processMessageStep sem exti s text history).scamConfidence =
      min (cumulativeScore sem text history / 10) 1) ∧
    0 ≤ min (cumulativeScore sem text history / 10) 1 ∧
    min (cumulativeScore sem text history / 10) 1 ≤ 1 := by
  have hcum : cumulativeScore sem text history =
      (ScamDetector.detect sem text history).score +
        ((history.drop (history.length - 5)).map
          (fun h => (3/10) * (ScamDetector.detect sem h []).score)).sum := by
    unfold cumulativeScore
    by_cases h : history.isEmpty
    · rw [List.isEmpty_iff] at h
      subst h
      simp
    · simp only [h, if_neg, Bool.false_eq_true, if_false]
      rw [foldl_add_map]
      have hm : (List.drop (history.length - 5) history).map
            (fun h => (ScamDetector.detect sem h []).score * (3/10)) =
          (List.drop (history.length - 5) history).map
            (fun h => (3/10) * (ScamDetector.detect sem h []).score) :=
        List.map_congr_left (fun a _ => by ring)
      rw [hm]
  refine ⟨hcum, fun exti s => rfl, ?_, min_le_right _ _⟩
  have h0 : 0 ≤ cumulativeScore sem text history := by
    rw [hcum]
    have h1 : 0 ≤ ((history.drop (history.length - 5)).map
        (fun h => (3/10) * (ScamDetector.detect sem h []).score)).sum := by
      apply List.sum_nonneg
      intro x hx
      rcases List.mem_map.mp hx with ⟨a, _, rfl⟩
      have := detect_score_nonneg sem a []
      positivity
    have h2 := detect_score_nonneg sem text history
    linarith
  exact le_min (by positivity) zero_le_one

/-- C2: the scam flag written by a processing step is exactly
`currentIsScam OR previousFlag OR cumulative ≥ 6`, and therefore the flag
is monotone: once a session is flagged, any further sequence of updates
leaves it flagged. -/
theorem C2_scam_flag_monotone (sem : List Char → Bool) (exti : String → Intel) :
    (∀ s text history,
      (processMessageStep sem exti s text history).scamDetected =
        ((ScamDetector.detect sem text history).isScam || s.scamDetected ||
          decide (cumulativeScore sem text history ≥ 6))) ∧
    (∀ (inputs : List (String × List String)) (s : Session), s.scamDetected = true →
      (inputs.foldl (fun t p => processMessageStep sem exti t p.1 p.2) s).scamDetected = true) := by
  constructor
  · intro s text history
    rfl
  · intro inputs
    induction inputs with
    | nil => intro s h; simpa using h
    | cons p ps ih =>
      intro s h
      simp only [List.foldl_cons]
      apply ih
      show ((ScamDetector.detect sem p.1 p.2).isScam || s.scamDetected ||
        decide (cumulativeScore sem p.1 p.2 ≥ 6)) = true
      rw [h]
      simp

/-- C2 witness: a session already flagged stays flagged across two further
updates. -/
theorem C2_scam_flag_monotone_witness :
    (List.foldl
      (fun t (p : String × List String) =>
        processMessageStep (fun _ => false) (fun _ => emptyI) t p.1 p.2)
      { newSession with scamDetected := true }
      [("hello", []), ("hi there", ["hello"])]).scamDetected = true :=
  (C2_scam_flag_monotone (fun _ => false) (fun _ => emptyI)).2
    [("hello", []), ("hi there", ["hello"])] _ rfl

/-- Merging the empty intelligence on the left is the identity. -/
theorem mergeIntelligence_empty_left (a : Intel) : mergeIntelligence emptyI a = a := by
  apply Intel.ext <;> simp [mergeIntelligence, emptyI]

/-- Merging the empty intelligence on the right is the identity. -/
theorem mergeIntelligence_empty_right (a : Intel) : mergeIntelligence a emptyI = a := by
  apply Intel.ext <;> simp [mergeIntelligence, emptyI]

/-- Intelligence merging is commutative (per-category set union). -/
theorem mergeIntelligence_comm (a b : Intel) :
    mergeIntelligence a b = mergeIntelligence b a := by
  apply Intel.ext <;> simp [mergeIntelligence, Finset.union_comm]

/-- Intelligence merging is associative (per-category set union). -/
theorem mergeIntelligence_assoc (a b c : Intel) :
    mergeIntelligence (mergeIntelligence a b) c =
      mergeIntelligence a (mergeIntelligence b c) := by
  apply Intel.ext <;> simp [mergeIntelligence, Finset.union_assoc]

/-- Intelligence merging commutes on the left. -/
theorem mergeIntelligence_left_comm (a b c : Intel) :
    mergeIntelligence a (mergeIntelligence b c) =
      mergeIntelligence b (mergeIntelligence a c) := by
  rw [← mergeIntelligence_assoc, mergeIntelligence_comm a b, mergeIntelligence_assoc]

/-- The merged union of a list of intelligence sets. -/
def intelBigUnion (l : List Intel) : Intel := l.foldr mergeIntelligence emptyI

/-- `intelBigUnion` splits over list append. -/
theorem intelBigUnion_append (l₁ l₂ : List Intel) :
    intelBigUnion (l₁ ++ l₂) =
      mergeIntelligence (intelBigUnion l₁) (intelBigUnion l₂) := by
  induction l₁ with
  | nil => simp [intelBigUnion, mergeIntelligence_empty_left]
  | cons x xs ih =>
    show mergeIntelligence x (intelBigUnion (xs ++ l₂)) = _
    rw [ih, ← mergeIntelligence_assoc]
    rfl

/-- `intelBigUnion` is invariant under permutation of the list. -/
theorem intelBigUnion_perm {l₁ l₂ : List Intel} (h : l₁.Perm l₂) :
    intelBigUnion l₁ = intelBigUnion l₂ := by
  induction h with
  | nil => rfl
  | cons x _ ih => exact congrArg (mergeIntelligence x) ih
  | swap x y l =>
    show mergeIntelligence y (mergeIntelligence x (intelBigUnion l)) =
      mergeIntelligence x (mergeIntelligence y (intelBigUnion l))
    rw [mergeIntelligence_left_comm]
  | trans _ _ ih₁ ih₂ => rw [ih₁, ih₂]

/-- Folding per-message merges equals merging in the big union at once. -/
theorem foldl_mergeIntelligence (exti : String → Intel) (l : List String) (init : Intel) :
    l.foldl (fun acc m => mergeIntelligence acc (exti m)) init =
      mergeIntelligence init (intelBigUnion (l.map exti)) := by
  induction l generalizing init with
  | nil => simp [intelBigUnion, mergeIntelligence_empty_right]
  | cons x xs ih =>
    simp only [List.foldl_cons, List.map_cons]
    rw [ih]
    show _ = mergeIntelligence init
      (mergeIntelligence (exti x) (intelBigUnion (xs.map exti)))
    rw [← mergeIntelligence_assoc]

/-- `extract_from_conversation` is the big union of the per-message
extractions over history followed by the current message. -/
theorem extract_from_conversation_eq (exti : String → Intel) (cur : String)
    (hist : List String) :
    IntelligenceExtractor.extract_from_conversation exti cur hist =
      intelBigUnion ((hist ++ [cur]).map exti) := by
  unfold IntelligenceExtractor.extract_from_conversation
  rw [foldl_mergeIntelligence, mergeIntelligence_empty_left, List.map_append,
    intelBigUnion_append]
  congr 1
  show exti cur = mergeIntelligence (exti cur) emptyI
  rw [mergeIntelligence_empty_right]

/-- A processing step merges exactly the conversation extraction into the
session intelligence. -/
theorem processStep_intelligence (sem : List Char → Bool) (exti : String → Intel)
    (s : Session) (text : String) (history : List String) :
    (processMessageStep sem exti s text history).intelligence =
      mergeIntelligence s.intelligence
        (IntelligenceExtractor.extract_from_conversation exti text history) := rfl

/-- All message texts passed through a list of endpoint calls
(each call passes its history followed by its current message). -/
def allMessages (calls : List (String × List String)) : List String :=
  (calls.map (fun c => c.2 ++ [c.1])).flatten

/-- Session intelligence after a fold of processing steps is the initial
intelligence merged with the big union over every message passed in. -/
theorem sessionFold_intelligence (sem : List Char → Bool) (exti : String → Intel)
    (calls : List (String × List String)) (s : Session) :
    (calls.foldl (fun t p => processMessageStep sem exti t p.1 p.2) s).intelligence =
      mergeIntelligence s.intelligence (intelBigUnion ((allMessages calls).map exti)) := by
  induction calls generalizing s with
  | nil => simp [allMessages, intelBigUnion, mergeIntelligence_empty_right]
  | cons c cs ih =>
    simp only [List.foldl_cons]
    rw [ih, processStep_intelligence, mergeIntelligence_assoc]
    congr 1
    rw [extract_from_conversation_eq]
    show mergeIntelligence (intelBigUnion ((c.2 ++ [c.1]).map exti)) _ = _
    rw [← intelBigUnion_append, ← List.map_append]
    rfl

/-- Per-category containment of intelligence sets. -/
def intelSubset (a b : Intel) : Prop :=
  a.bankAccounts ⊆ b.bankAccounts ∧ a.upiIds ⊆ b.upiIds ∧
  a.phoneNumbers ⊆ b.phoneNumbers ∧ a.phishingLinks ⊆ b.phishingLinks ∧
  a.emailAddresses ⊆ b.emailAddresses ∧ a.suspiciousKeywords ⊆ b.suspiciousKeywords

/-- Merging only adds: the old intelligence is contained in the merge. -/
theorem intelSubset_merge_left (a b : Intel) : intelSubset a (mergeIntelligence a b) := by
  refine ⟨?_, ?_, ?_, ?_, ?_, ?_⟩ <;> exact Finset.subset_union_left

/-- C3: after any sequence of endpoint calls, each category of the session
intelligence is the deduplicated union of the per-message extractions over
every message ever passed in; the result is independent of the order of
the messages; and the accumulation is append-only. -/
theorem C3_intelligence_dedup_union (sem : List Char → Bool) (exti : String → Intel) :
    (∀ calls : List (String × List String),
      (calls.foldl (fun t p => processMessageStep sem exti t p.1 p.2)
        newSession).intelligence =
        intelBigUnion ((allMessages calls).map exti)) ∧
    (∀ calls₁ calls₂ : List (String × List String),
      (allMessages calls₁).Perm (allMessages calls₂) →
      (calls₁.foldl (fun t p => processMessageStep sem exti t p.1 p.2)
        newSession).intelligence =
      (calls₂.foldl (fun t p => processMessageStep sem exti t p.1 p.2)
        newSession).intelligence) ∧
    (∀ (calls : List (String × List String)) (c : String × List String),
      intelSubset
        ((calls.foldl (fun t p => processMessageStep sem exti t p.1 p.2)
          newSession).intelligence)
        (((calls ++ [c]).foldl (fun t p => processMessageStep sem exti t p.1 p.2)
          newSession).intelligence)) := by
  have key : ∀ calls : List (String × List String),
      (calls.foldl (fun t p => processMessageStep sem exti t p.1 p.2)
        newSession).intelligence =
        intelBigUnion ((allMessages calls).map exti) := by
    intro calls
    rw [sessionFold_intelligence]
    show mergeIntelligence emptyI _ = _
    rw [mergeIntelligence_empty_left]
  refine ⟨key, ?_, ?_⟩
  · intro calls₁ calls₂ h
    rw [key, key]
    exact intelBigUnion_perm (h.map exti)
  · intro calls c
    rw [List.foldl_append]
    simp only [List.foldl_cons, List.foldl_nil]
    rw [processStep_intelligence]
    exact intelSubset_merge_left _ _

/-- A concrete per-message extractor used by the C3 witness: each message
contributes itself as a suspicious keyword. -/
def extiKeyword (m : String) : Intel := { emptyI with suspiciousKeywords := {m} }

/-- C3 witness: two call sequences whose messages are permutations of each
other produce identical session intelligence. -/
theorem C3_intelligence_dedup_union_witness :
    ([(("a" : String), ([] : List String)), ("b", [])].foldl
      (fun t p => processMessageStep (fun _ => false) extiKeyword t p.1 p.2)
      newSession).intelligence =
    ([(("b" : String), ([] : List String)), ("a", [])].foldl
      (fun t p => processMessageStep (fun _ => false) extiKeyword t p.1 p.2)
      newSession).intelligence :=
  (C3_intelligence_dedup_union (fun _ => false) extiKeyword).2.1
    [("a", []), ("b", [])] [("b", []), ("a", [])] (List.Perm.swap "b" "a" [])

/-- The ten decimal digit characters. -/
def digitChars : List Char := ['0','1','2','3','4','5','6','7','8','9']

/-- Python `cleaned[0] in "6789"` (evaluated only on non-empty strings,
which the preceding length test guarantees). -/
def headIn6to9 : List Char → Bool
  | c :: _ => c == '6' || c == '7' || c == '8' || c == '9'
  | [] => false

/-- `IntelligenceExtractor._clean_phone_number` (intelligence_extractor.py
lines 121-132): strip whitespace and dashes, then prepend `+91` to a
10-digit number starting 6-9 and `+` to a 12-digit number starting `91`. -/
def IntelligenceExtractor.cleanPhoneNumber (p : List Char) : List Char :=
  let cleaned := p.filter (fun c => !(pySpace c || c == '-'))
  if cleaned.length == 10 && headIn6to9 cleaned then '+' :: '9' :: '1' :: cleaned
  else if cleaned.length == 12 && ['9', '1'].isPrefixOf cleaned then '+' :: cleaned
  else cleaned

/-- The deduplicated phone-number category produced from a set of raw regex
matches (`extract_from_message` lines 169-174 followed by the
`list(set(...))` deduplication of `extract_from_conversation`). -/
def phoneNumbersOf (raw : Finset String) : Finset String :=
  raw.image (fun p => String.mk (IntelligenceExtractor.cleanPhoneNumber p.data))

/-- Digits survive the whitespace/dash stripping. -/
theorem digit_keep : ∀ x ∈ digitChars, (!(pySpace x || x == '-')) = true := by decide

/-- C6: a 10-digit number starting 6-9 normalizes to its `+91`-prefixed
form; a 12-digit number starting `91` gets a leading `+`; the `+91` form is
left unchanged; hence all three forms collapse to one canonical string, and
the bare and `+91` raw matches deduplicate to a single phone-number
entry. -/
theorem C6_phone_normalization (c : Char) (cs : List Char)
    (hlen : (c :: cs).length = 10)
    (hdig : ∀ x ∈ c :: cs, x ∈ digitChars)
    (hfirst : c = '6' ∨ c = '7' ∨ c = '8' ∨ c = '9') :
    IntelligenceExtractor.cleanPhoneNumber (c :: cs) = '+' :: '9' :: '1' :: c :: cs ∧
    IntelligenceExtractor.cleanPhoneNumber ('9' :: '1' :: c :: cs) =
      '+' :: '9' :: '1' :: c :: cs ∧
    IntelligenceExtractor.cleanPhoneNumber ('+' :: '9' :: '1' :: c :: cs) =
      '+' :: '9' :: '1' :: c :: cs ∧
    phoneNumbersOf {String.mk (c :: cs), String.mk ('+' :: '9' :: '1' :: c :: cs)} =
      {String.mk ('+' :: '9' :: '1' :: c :: cs)} := by
  have hcs : cs.length = 9 := by simpa using hlen
  have hfil : (c :: cs).filter (fun x => !(pySpace x || x == '-')) = c :: cs :=
    List.filter_eq_self.mpr (fun a ha => digit_keep a (hdig a ha))
  have hfil12 : ('9' :: '1' :: c :: cs).filter (fun x => !(pySpace x || x == '-')) =
      '9' :: '1' :: c :: cs := by
    apply List.filter_eq_self.mpr
    intro a ha
    simp only [List.mem_cons] at ha
    rcases ha with rfl | rfl | rfl | ha
    · decide
    · decide
    · exact digit_keep a (hdig a (List.mem_cons.mpr (Or.inl rfl)))
    · exact digit_keep a (hdig a (List.mem_cons.mpr (Or.inr ha)))
  have hfil13 : ('+' :: '9' :: '1' :: c :: cs).filter (fun x => !(pySpace x || x == '-')) =
      '+' :: '9' :: '1' :: c :: cs := by
    apply List.filter_eq_self.mpr
    intro a ha
    simp only [List.mem_cons] at ha
    rcases ha with rfl | rfl | rfl | rfl | ha
    · decide
    · decide
    · decide
    · exact digit_keep a (hdig a (List.mem_cons.mpr (Or.inl rfl)))
    · exact digit_keep a (hdig a (List.mem_cons.mpr (Or.inr ha)))
  have h10 : IntelligenceExtractor.cleanPhoneNumber (c :: cs) =
      '+' :: '9' :: '1' :: c :: cs := by
    unfold IntelligenceExtractor.cleanPhoneNumber
    rw [hfil]
    have hc : headIn6to9 (c :: cs) = true := by
      rcases hfirst with rfl | rfl | rfl | rfl <;> simp [headIn6to9]
    simp [hlen, hc]
  have h12 : IntelligenceExtractor.cleanPhoneNumber ('9' :: '1' :: c :: cs) =
      '+' :: '9' :: '1' :: c :: cs := by
    unfold IntelligenceExtractor.cleanPhoneNumber
    rw [hfil12]
    simp [List.length_cons, hcs, List.isPrefixOf]
  have h13 : IntelligenceExtractor.cleanPhoneNumber ('+' :: '9' :: '1' :: c :: cs) =
      '+' :: '9' :: '1' :: c :: cs := by
    unfold IntelligenceExtractor.cleanPhoneNumber
    rw [hfil13]
    simp [List.length_cons, hcs]
  refine ⟨h10, h12, h13, ?_⟩
  unfold phoneNumbersOf
  rw [Finset.image_insert, Finset.image_singleton]
  have e1 : String.mk (IntelligenceExtractor.cleanPhoneNumber (String.mk (c :: cs)).data) =
      String.mk ('+' :: '9' :: '1' :: c :: cs) := by
    show String.mk (IntelligenceExtractor.cleanPhoneNumber (c :: cs)) = _
    rw [h10]
  have e2 : String.mk (IntelligenceExtractor.cleanPhoneNumber
        (String.mk ('+' :: '9' :: '1' :: c :: cs)).data) =
      String.mk ('+' :: '9' :: '1' :: c :: cs) := by
    show String.mk (IntelligenceExtractor.cleanPhoneNumber ('+' :: '9' :: '1' :: c :: cs)) = _
    rw [h13]
  rw [e1, e2]
  simp

/-- C6 witness: `9876543210`, `919876543210` and `+919876543210` all
normalize to `+919876543210` and the bare/prefixed pair deduplicates to a
single entry. -/
theorem C6_phone_normalization_witness :
    IntelligenceExtractor.cleanPhoneNumber ('9' :: "876543210".data) =
      '+' :: '9' :: '1' :: '9' :: "876543210".data ∧
    IntelligenceExtractor.cleanPhoneNumber ('9' :: '1' :: '9' :: "876543210".data) =
      '+' :: '9' :: '1' :: '9' :: "876543210".data ∧
    IntelligenceExtractor.cleanPhoneNumber ('+' :: '9' :: '1' :: '9' :: "876543210".data) =
      '+' :: '9' :: '1' :: '9' :: "876543210".data ∧
    phoneNumbersOf {String.mk ('9' :: "876543210".data),
        String.mk ('+' :: '9' :: '1' :: '9' :: "876543210".data)} =
      {String.mk ('+' :: '9' :: '1' :: '9' :: "876543210".data)} :=
  C6_phone_normalization '9' "876543210".data (by decide) (by decide) (by decide)

/-- `EscalationAnalyzer` threat-level vocabulary (level 4). -/
def threatTerms : List String := ["police", "arrest", "legal", "court", "jail", "case"]

/-- `EscalationAnalyzer` critical vocabulary (level 3). -/
def criticalTerms : List String := ["otp", "code", "pin", "password", "money", "transfer", "pay"]

/-- `EscalationAnalyzer` sensitive vocabulary (level 2). -/
def sensitiveTerms : List String := ["upi", "account", "bank", "number", "ifsc", "@"]

/-- `EscalationAnalyzer` info vocabulary (level 1). -/
def infoTerms : List String := ["name", "address", "verify", "check", "confirm"]

/-- Severity level assignment of `EscalationAnalyzer.analyze`
(behavior_engine.py lines 113-125): highest-priority vocabulary hit wins
(threat before critical before sensitive before info), default greeting. -/
def escalationLevel (message : String) : ℕ :=
  let msg := pyLower message
  if threatTerms.any (fun w => containsSub w.data msg) then 4
  else if criticalTerms.any (fun w => containsSub w.data msg) then 3
  else if sensitiveTerms.any (fun w => containsSub w.data msg) then 2
  else if infoTerms.any (fun w => containsSub w.data msg) then 1
  else 0

/-- Internal state of `EscalationAnalyzer`. -/
structure EscState where
  previousLevel : ℕ
  currentLevel : ℕ
  history : List ℕ
deriving DecidableEq, Repr

/-- Initial `EscalationAnalyzer` state. -/
def escInit : EscState := { previousLevel := 0, currentLevel := 0, history := [] }

/-- State update of `EscalationAnalyzer.analyze` (lines 127-135); its
return value is discarded by `BehaviorEngine.process_reply`, so only the
state transition matters. -/
def escAnalyze (st : EscState) (message : String) : EscState :=
  let level := escalationLevel message
  { previousLevel := st.currentLevel
  , currentLevel := level
  , history := st.history ++ [level] }

/-- The published `escalation_rate` property (lines 137-139). -/
def escalationRate (st : EscState) : ℤ :=
  (st.currentLevel : ℤ) - (st.previousLevel : ℤ)

/-- After folding the analyzer over a message list, the current level is
the level of the last message (or the greeting baseline 0). -/
theorem escFold_currentLevel (l : List String) :
    ((l.foldl escAnalyze escInit).currentLevel) =
      ((l.getLast?).map escalationLevel).getD 0 := by
  induction l using List.reverseRecOn with
  | nil => rfl
  | append_singleton xs x _ =>
    rw [List.foldl_append]
    simp [escAnalyze]

/-- C8: the escalation rate published after processing message N is
`level(N) − level(N−1)`, with the greeting baseline 0 standing in for the
previous level on a session's first message. -/
theorem C8_escalation_rate (prior : List String) (m : String) :
    escalationRate ((prior ++ [m]).foldl escAnalyze escInit) =
      (escalationLevel m : ℤ) - (((prior.getLast?).map escalationLevel).getD 0 : ℤ) := by
  rw [List.foldl_append]
  have h1 : ∀ st : EscState, escalationRate (escAnalyze st m) =
      (escalationLevel m : ℤ) - (st.currentLevel : ℤ) := fun st => rfl
  rw [List.foldl_cons, List.foldl_nil, h1, escFold_currentLevel prior]

/-- Internal state of `IntentTracker` (confidence plus turn counter). -/
structure IntentState where
  confidence : ℚ
  turnCount : ℕ
deriving DecidableEq, Repr

/-- Initial `IntentTracker` state. -/
def intentInit : IntentState := { confidence := 0, turnCount := 0 }

/-- Per-session state of a `BehaviorEngine` (the `Humanizer` holds only
randomness-driven presentation state and is not modelled). -/
structure BehaviorEngineState where
  intent : IntentState
  escalation : EscState
  aggressionScores : List ℚ
deriving DecidableEq, Repr

/-- A freshly constructed `BehaviorEngine()`. -/
def BehaviorEngineState.init : BehaviorEngineState :=
  { intent := intentInit, escalation := escInit, aggressionScores := [] }

/-- `get_behavior_engine` (behavior_engine.py lines 445-449): look the
session id up in the module-level `_engines` map and, when absent, CREATE a
fresh engine under that id. -/
def getBehaviorEngine (engines : List (String × BehaviorEngineState)) (sessionId : String) :
    BehaviorEngineState × List (String × BehaviorEngineState) :=
  match engines.lookup sessionId with
  | some e => (e, engines)
  | none => (BehaviorEngineState.init, engines ++ [(sessionId, BehaviorEngineState.init)])

/-- `SessionManager.update_session` at store level (session_manager.py
lines 65-108): an unknown session id raises `ValueError`, modelled as
`Except.error`; otherwise the session record is updated in place. -/
def SessionManager.updateSession (store : List (String × Session)) (sessionId : String)
    (scamDetected : Option Bool) (scamConfidence : Option ℚ) (newMessage : Option MsgRec)
    (intelligence : Option Intel) (agentNote : Option String) (isCompleted : Option Bool) :
    Except String (List (String × Session) × Session) :=
  match store.lookup sessionId with
  | none => Except.error ("Session " ++ sessionId ++ " not found")
  | some s =>
    let s2 := SessionManager.updateSessionFields s scamDetected scamConfidence newMessage
      intelligence agentNote isCompleted
    Except.ok (store.map (fun p => if p.1 == sessionId then (sessionId, s2) else p), s2)

/-- C7 counterexample: a behavior-engine update requested for a session id
that was never created does NOT raise an error — `get_behavior_engine`
silently creates fresh engine state for the unknown identifier. -/
theorem C7_counterexample_engine_autocreate :
    getBehaviorEngine [] "session-1" =
      (BehaviorEngineState.init, [("session-1", BehaviorEngineState.init)]) := rfl

/-- C7 (amended): `SessionManager.update_session` on a never-created
session id surfaces an error to the caller, but `get_behavior_engine`
silently creates fresh state for an unknown session id instead of
erroring. -/
theorem C7_unknown_session_amended :
    (∀ (store : List (String × Session)) (sessionId : String)
      (sd : Option Bool) (sc : Option ℚ) (nm : Option MsgRec) (intel : Option Intel)
      (note : Option String) (ic : Option Bool),
      store.lookup sessionId = none →
      SessionManager.updateSession store sessionId sd sc nm intel note ic =
        Except.error ("Session " ++ sessionId ++ " not found")) ∧
    (∀ (engines : List (String × BehaviorEngineState)) (sessionId : String),
      engines.lookup sessionId = none →
      getBehaviorEngine engines sessionId =
        (BehaviorEngineState.init, engines ++ [(sessionId, BehaviorEngineState.init)])) := by
  constructor
  · intro store sessionId sd sc nm intel note ic h
    unfold SessionManager.updateSession
    rw [h]
  · intro engines sessionId h
    unfold getBehaviorEngine
    rw [h]

/-- C7 witness: both amended behaviors at a concrete empty store. -/
theorem C7_unknown_session_amended_witness :
    SessionManager.updateSession [] "s1" none none none none none none =
      Except.error ("Session " ++ "s1" ++ " not found") ∧
    getBehaviorEngine [] "s1" =
      (BehaviorEngineState.init, [("s1", BehaviorEngineState.init)]) :=
  ⟨C7_unknown_session_amended.1 [] "s1" none none none none none none rfl,
   C7_unknown_session_amended.2 [] "s1" rfl⟩

/-- Urgency vocabulary of `AggressionAnalyzer.analyze`. -/
def aggUrgencyWords : List String :=
  ["urgent", "immediately", "now", "fast", "quick", "hurry", "asap"]

/-- Threat vocabulary of `AggressionAnalyzer.analyze`. -/
def aggThreatWords : List String :=
  ["block", "suspend", "arrest", "police", "legal", "freeze", "close"]

/-- Python `str.split()` with no arguments: split on whitespace runs,
dropping empty fragments; `cur` accumulates the current word reversed. -/
def pySplitWsAux (cur : List Char) : List Char → List (List Char)
  | [] => if cur.isEmpty then [] else [cur.reverse]
  | c :: rest =>
    if pySpace c then
      if cur.isEmpty then pySplitWsAux [] rest
      else cur.reverse :: pySplitWsAux [] rest
    else pySplitWsAux (c :: cur) rest

/-- Python `str.split()` on a character list. -/
def pySplitWs (cs : List Char) : List (List Char) := pySplitWsAux [] cs

/-- The ALL-CAPS bonus of `AggressionAnalyzer.analyze` (lines 176-179):
1 when the uppercase-character ratio exceeds 0.4. -/
def aggCapsBonus (message : String) : ℚ :=
  if ((message.data.filter Char.isUpper).length : ℚ) /
      ((max message.data.length 1 : ℕ) : ℚ) > 2/5 then 1 else 0

/-- Count of repeated words, `len(words) - len(set(words))`. -/
def aggRepeatedCount (msgLower : List Char) : ℕ :=
  (pySplitWs msgLower).length - (pySplitWs msgLower).dedup.length

/-- The repeated-demand bonus of `AggressionAnalyzer.analyze` (lines
184-188): `0.5 × min(repeated, 2)` once there are more than two words. -/
def aggRepeatedBonus (msgLower : List Char) : ℚ :=
  if (pySplitWs msgLower).length > 2
  then ((min (aggRepeatedCount msgLower) 2 : ℕ) : ℚ) * (1/2) else 0

/-- Per-turn aggression score of `AggressionAnalyzer.analyze` (lines
158-192): urgency hits + 2 × threat hits + caps bonus + 0.5 per
exclamation mark + repeated-word bonus. -/
def aggressionScore (message : String) : ℚ :=
  ((aggUrgencyWords.filter (fun w => containsSub w.data (pyLower message))).length : ℚ) +
  2 * ((aggThreatWords.filter (fun w => containsSub w.data (pyLower message))).length : ℚ) +
  aggCapsBonus message +
  ((message.data.filter (fun c => c == '!')).length : ℚ) * (1/2) +
  aggRepeatedBonus (pyLower message)

/-- `deque(maxlen=5)` append: keep the most recent five scores. -/
def pushWindow (w : List ℚ) (s : ℚ) : List ℚ :=
  let w2 := w ++ [s]
  w2.drop (w2.length - 5)

/-- Python `round(x, 3)` on the exact rational value. -/
def round3 (x : ℚ) : ℚ := ((round (x * 1000) : ℤ) : ℚ) / 1000

/-- The regression numerator `Σ (i - x̄)(yᵢ - ȳ)` of `aggression_slope`. -/
def slopeNumerator (scores : List ℚ) : ℚ :=
  let xMean : ℚ := ((scores.length : ℚ) - 1) / 2
  let yMean : ℚ := scores.sum / (scores.length : ℚ)
  (scores.enum.map (fun p => ((p.1 : ℚ) - xMean) * (p.2 - yMean))).sum

/-- The regression denominator `Σ (i - x̄)²` of `aggression_slope`. -/
def slopeDenominator (scores : List ℚ) : ℚ :=
  let xMean : ℚ := ((scores.length : ℚ) - 1) / 2
  ((List.range scores.length).map (fun i => ((i : ℚ) - xMean) ^ 2)).sum

/-- The `aggression_slope` property (behavior_engine.py lines 194-211):
0.0 below two samples, guarded division, and `round(…, 3)`. -/
def aggSlope (scores : List ℚ) : ℚ :=
  if scores.length < 2 then 0
  else if slopeDenominator scores = 0 then 0
  else round3 (slopeNumerator scores / slopeDenominator scores)

/-- Modelled from the spec wording of §4.4: the plain least-squares
linear-regression slope of (turn index, score), defined as 0 when fewer
than two samples exist (refinement reference for `aggSlope`). -/
def lsqSlope (scores : List ℚ) : ℚ :=
  if scores.length < 2 then 0
  else slopeNumerator scores / slopeDenominator scores

/-- `round3` is the identity on rationals with denominator dividing 1000. -/
theorem round3_of_mul_int (x : ℚ) (k : ℤ) (h : x * 1000 = (k : ℚ)) : round3 x = x := by
  unfold round3
  rw [h, round_intCast, div_eq_iff (by norm_num : (1000 : ℚ) ≠ 0)]
  linarith

/-- Caps bonus is zero or one. -/
theorem aggCapsBonus_cases (m : String) : aggCapsBonus m = 0 ∨ aggCapsBonus m = 1 := by
  unfold aggCapsBonus
  split
  · exact Or.inr rfl
  · exact Or.inl rfl

/-- The repeated-word bonus is half a natural number. -/
theorem aggRepeatedBonus_half (cs : List Char) :
    ∃ r : ℕ, aggRepeatedBonus cs = (r : ℚ) / 2 := by
  unfold aggRepeatedBonus
  split
  · exact ⟨min (aggRepeatedCount cs) 2, by push_cast; ring⟩
  · exact ⟨0, by norm_num⟩

/-- Every per-turn aggression score is an integer multiple of 1/2. -/
theorem aggressionScore_half (m : String) :
    ∃ k : ℤ, aggressionScore m = (k : ℚ) / 2 := by
  obtain ⟨r, hr⟩ := aggRepeatedBonus_half (pyLower m)
  unfold aggressionScore
  rcases aggCapsBonus_cases m with hc | hc
  · exact ⟨2 * ((aggUrgencyWords.filter (fun w => containsSub w.data (pyLower m))).length : ℤ) +
      4 * ((aggThreatWords.filter (fun w => containsSub w.data (pyLower m))).length : ℤ) +
      ((m.data.filter (fun c => c == '!')).length : ℤ) + (r : ℤ),
      by rw [hc, hr]; push_cast; ring⟩
  · exact ⟨2 * ((aggUrgencyWords.filter (fun w => containsSub w.data (pyLower m))).length : ℤ) +
      4 * ((aggThreatWords.filter (fun w => containsSub w.data (pyLower m))).length : ℤ) + 2 +
      ((m.data.filter (fun c => c == '!')).length : ℤ) + (r : ℤ),
      by rw [hc, hr]; push_cast; ring⟩

/-- Regression denominator for two samples. -/
theorem slopeDen_two (y0 y1 : ℚ) : slopeDenominator [y0, y1] = 1/2 := by
  unfold slopeDenominator
  norm_num [show List.range 2 = [0, 1] from rfl]

/-- Regression denominator for three samples. -/
theorem slopeDen_three (y0 y1 y2 : ℚ) : slopeDenominator [y0, y1, y2] = 2 := by
  unfold slopeDenominator
  norm_num [show List.range 3 = [0, 1, 2] from rfl]

/-- Regression denominator for four samples. -/
theorem slopeDen_four (y0 y1 y2 y3 : ℚ) : slopeDenominator [y0, y1, y2, y3] = 5 := by
  unfold slopeDenominator
  norm_num [show List.range 4 = [0, 1, 2, 3] from rfl]

/-- Regression denominator for five samples. -/
theorem slopeDen_five (y0 y1 y2 y3 y4 : ℚ) :
    slopeDenominator [y0, y1, y2, y3, y4] = 10 := by
  unfold slopeDenominator
  norm_num [show List.range 5 = [0, 1, 2, 3, 4] from rfl]

/-- Regression numerator for two samples. -/
theorem slopeNum_two (y0 y1 : ℚ) : slopeNumerator [y0, y1] = (y1 - y0) / 2 := by
  unfold slopeNumerator
  simp [List.enum, List.enumFrom]
  ring

/-- Regression numerator for three samples. -/
theorem slopeNum_three (y0 y1 y2 : ℚ) : slopeNumerator [y0, y1, y2] = y2 - y0 := by
  unfold slopeNumerator
  simp [List.enum, List.enumFrom]
  ring

/-- Regression numerator for four samples. -/
theorem slopeNum_four (y0 y1 y2 y3 : ℚ) :
    slopeNumerator [y0, y1, y2, y3] = (3 * y3 + y2 - y1 - 3 * y0) / 2 := by
  unfold slopeNumerator
  simp [List.enum, List.enumFrom]
  ring

/-- Regression numerator for five samples. -/
theorem slopeNum_five (y0 y1 y2 y3 y4 : ℚ) :
    slopeNumerator [y0, y1, y2, y3, y4] = 2 * y4 + y3 - y1 - 2 * y0 := by
  unfold slopeNumerator
  simp [List.enum, List.enumFrom]
  ring

/-- On any window of at most five half-integer scores — i.e. on every
window the aggression analyzer can actually hold — the rounded slope of
the code equals the exact least-squares slope. -/
theorem aggSlope_eq_lsqSlope (w : List ℚ) (hlen : w.length ≤ 5)
    (hhalf : ∀ y ∈ w, ∃ k : ℤ, y = (k : ℚ) / 2) :
    aggSlope w = lsqSlope w := by
  rcases w with _ | ⟨a, _ | ⟨b, _ | ⟨c, _ | ⟨d, _ | ⟨e, _ | ⟨f, rest⟩⟩⟩⟩⟩⟩
  · rfl
  · rfl
  · obtain ⟨m0, rfl⟩ := hhalf a (by simp)
    obtain ⟨m1, rfl⟩ := hhalf b (by simp)
    unfold aggSlope lsqSlope
    rw [if_neg (by norm_num), if_neg (by rw [slopeDen_two]; norm_num),
      if_neg (by norm_num), slopeNum_two, slopeDen_two]
    have hX : (((m1 : ℚ)/2 - (m0 : ℚ)/2) / 2) / (1/2) = ((m1 - m0 : ℤ) : ℚ) / 2 := by
      push_cast
      ring
    rw [hX]
    exact round3_of_mul_int _ (500 * (m1 - m0)) (by push_cast; ring)
  · obtain ⟨m0, rfl⟩ := hhalf a (by simp)
    obtain ⟨m1, rfl⟩ := hhalf b (by simp)
    obtain ⟨m2, rfl⟩ := hhalf c (by simp)
    unfold aggSlope lsqSlope
    rw [if_neg (by norm_num), if_neg (by rw [slopeDen_three]; norm_num),
      if_neg (by norm_num), slopeNum_three, slopeDen_three]
    have hX : (((m2 : ℚ)/2 - (m0 : ℚ)/2)) / 2 = ((m2 - m0 : ℤ) : ℚ) / 4 := by
      push_cast
      ring
    rw [hX]
    exact round3_of_mul_int _ (250 * (m2 - m0)) (by push_cast; ring)
  · obtain ⟨m0, rfl⟩ := hhalf a (by simp)
    obtain ⟨m1, rfl⟩ := hhalf b (by simp)
    obtain ⟨m2, rfl⟩ := hhalf c (by simp)
    obtain ⟨m3, rfl⟩ := hhalf d (by simp)
    unfold aggSlope lsqSlope
    rw [if_neg (by norm_num), if_neg (by rw [slopeDen_four]; norm_num),
      if_neg (by norm_num), slopeNum_four, slopeDen_four]
    have hX : ((3 * ((m3 : ℚ)/2) + (m2 : ℚ)/2 - (m1 : ℚ)/2 - 3 * ((m0 : ℚ)/2)) / 2) / 5 =
        ((3 * m3 + m2 - m1 - 3 * m0 : ℤ) : ℚ) / 20 := by
      push_cast
      ring
    rw [hX]
    exact round3_of_mul_int _ (50 * (3 * m3 + m2 - m1 - 3 * m0)) (by push_cast; ring)
  · obtain ⟨m0, rfl⟩ := hhalf a (by simp)
    obtain ⟨m1, rfl⟩ := hhalf b (by simp)
    obtain ⟨m2, rfl⟩ := hhalf c (by simp)
    obtain ⟨m3, rfl⟩ := hhalf d (by simp)
    obtain ⟨m4, rfl⟩ := hhalf e (by simp)
    unfold aggSlope lsqSlope
    rw [if_neg (by norm_num), if_neg (by rw [slopeDen_five]; norm_num),
      if_neg (by norm_num), slopeNum_five, slopeDen_five]
    have hX : ((2 * ((m4 : ℚ)/2) + (m3 : ℚ)/2 - (m1 : ℚ)/2 - 2 * ((m0 : ℚ)/2))) / 10 =
        ((2 * m4 + m3 - m1 - 2 * m0 : ℤ) : ℚ) / 20 := by
      push_cast
      ring
    rw [hX]
    exact round3_of_mul_int _ (50 * (2 * m4 + m3 - m1 - 2 * m0)) (by push_cast; ring)
  · simp [List.length_cons] at hlen

/-- The deque append keeps at most five scores. -/
theorem pushWindow_length (w : List ℚ) (s : ℚ) : (pushWindow w s).length ≤ 5 := by
  unfold pushWindow
  rw [List.length_drop]
  omega

/-- Every element of the pushed window was in the window or is the new
score. -/
theorem pushWindow_mem (w : List ℚ) (s : ℚ) :
    ∀ y ∈ pushWindow w s, y ∈ w ∨ y = s := by
  intro y hy
  unfold pushWindow at hy
  have h2 := List.mem_of_mem_drop hy
  simpa using h2

/-- Any window reachable by the aggression analyzer holds at most five
scores, each a half-integer. -/
theorem aggWindow_invariant (msgs : List String) :
    (msgs.foldl (fun w m => pushWindow w (aggressionScore m)) []).length ≤ 5 ∧
    ∀ y ∈ msgs.foldl (fun w m => pushWindow w (aggressionScore m)) [],
      ∃ k : ℤ, y = (k : ℚ) / 2 := by
  have key : ∀ (l : List String) (w0 : List ℚ),
      w0.length ≤ 5 → (∀ y ∈ w0, ∃ k : ℤ, y = (k : ℚ) / 2) →
      (l.foldl (fun w m => pushWindow w (aggressionScore m)) w0).length ≤ 5 ∧
      ∀ y ∈ l.foldl (fun w m => pushWindow w (aggressionScore m)) w0,
        ∃ k : ℤ, y = (k : ℚ) / 2 := by
    intro l
    induction l with
    | nil => intro w0 h1 h2; exact ⟨h1, h2⟩
    | cons m ms ih =>
      intro w0 _ h2
      simp only [List.foldl_cons]
      apply ih
      · exact pushWindow_length w0 (aggressionScore m)
      · intro y hy
        rcases pushWindow_mem w0 (aggressionScore m) y hy with h | rfl
        · exact h2 y h
        · exact aggressionScore_half m
  exact key msgs [] (by simp) (by simp)

/-- C9: the published aggression slope is exactly 0 below two samples; on
every window reachable from a sequence of analyzed messages it equals the
exact least-squares linear-regression slope of (turn index, score); and on
the synthetic score sequence `[0,1,2,3,4]` it is exactly 1 (positive). -/
theorem C9_aggression_slope :
    (∀ w : List ℚ, w.length < 2 → aggSlope w = 0) ∧
    aggSlope [0, 1, 2, 3, 4] = 1 ∧
    (∀ msgs : List String,
      aggSlope (msgs.foldl (fun w m => pushWindow w (aggressionScore m)) []) =
        lsqSlope (msgs.foldl (fun w m => pushWindow w (aggressionScore m)) [])) := by
  refine ⟨?_, ?_, ?_⟩
  · intro w h
    unfold aggSlope
    rw [if_pos h]
  · unfold aggSlope
    have h1 : slopeNumerator [0, 1, 2, 3, 4] / slopeDenominator [0, 1, 2, 3, 4] = 1 := by
      rw [slopeNum_five, slopeDen_five]
      norm_num
    rw [if_neg (by norm_num), if_neg (by rw [slopeDen_five]; norm_num), h1]
    exact round3_of_mul_int 1 1000 (by norm_num)
  · intro msgs
    obtain ⟨h1, h2⟩ := aggWindow_invariant msgs
    exact aggSlope_eq_lsqSlope _ h1 h2

/-- C9 witness: slope 0 on a single-sample window, slope exactly 1 on the
synthetic increasing sequence, and code slope = least-squares slope after a
concrete message sequence. -/
theorem C9_aggression_slope_witness :
    aggSlope [(3 : ℚ)] = 0 ∧ aggSlope [0, 1, 2, 3, 4] = 1 :=
  ⟨C9_aggression_slope.1 [3] (by norm_num), C9_aggression_slope.2.1⟩
